import Mathlib

/-!
Shallow embedding of `art/preprocessing/image/image_resize/numpy.py`
(class `ImageResize`): batch image resizing with bounding-box rescaling
for object detection.

Modelling conventions:
* pixel values are rationals (the source works on floating-point numpy
  arrays; exact arithmetic stands in for it);
* a 3-D image is a nested list in the array layout of the source,
  `(H, W, C)` for channels-last or `(C, H, W)` for channels-first;
* Python exceptions become an `Err` value returned through `Except`,
  carrying the exception class and message of the source;
* `cv2.resize` is an external collaborator (spec section 6) and is
  passed in as an opaque function argument `R`, receiving the image, the
  `dsize` pair exactly as the source builds it, and the interpolation
  flag;
* `tqdm` is a pass-through over the iterated list and is dropped;
* `np.stack` raises `ValueError` on an empty list and on mismatched
  shapes, which the embedding reproduces;
* `np.clip(a, lo, hi)` is `np.minimum(hi, np.maximum(lo, a))`
  elementwise, per the numpy documentation.
-/

attribute [local semireducible] Rat.mul Rat.inv

/-- Python exception classes raised on the code paths under study,
with their messages (`keyError` carries the missing key). -/
inductive Err where
  | valueError (msg : String)
  | typeError (msg : String)
  | keyError (key : String)
  | indexError (msg : String)

deriving DecidableEq

/-- A numpy array held in an object-detection annotation record:
1-dimensional or 2-dimensional.  (The `boxes` entry must be 2-D with at
least 4 columns for the column assignments of the source to succeed;
other entries are copied verbatim and may have either rank.) -/
inductive Arr where
  | a1 (v : List ℚ)
  | a2 (rows : List (List ℚ))

deriving DecidableEq

/-- One element of a Python list passed as object-detection labels:
either a mapping from field names to arrays (a `dict[str, np.ndarray]`),
or anything else.  The source only ever tests `isinstance(y_i, dict)`,
so all non-mapping elements are observationally equivalent and are
collapsed into `nonDict`. -/
inductive YItem where
  | dict (d : List (String × Arr))
  | nonDict

deriving DecidableEq

/-- The dynamic value of the label argument `y` when it is not `None`:
a numpy array (classification labels), a Python list of per-image
records, or a single mapping (the shape the spec calls out as invalid
for object detection). -/
inductive YVal where
  | arr (a : Arr)
  | list (l : List YItem)
  | dict (d : List (String × Arr))

deriving DecidableEq

/-- A 3-D image as a nested list; axis order depends on the configured
channel layout. -/
abbrev Img : Type := List (List (List ℚ))

/-- The external resampling collaborator (`cv2.resize`): takes the
height-width-channels image, the `dsize` pair as built at the call
site, and the interpolation flag. -/
abbrev Resampler : Type := Img → Int × Int → Int → Img

/-- Configuration of `ImageResize` as stored by `__init__` (the
`apply_fit` / `apply_predict` flags are forwarded to the base class and
consumed by the host pipeline, not by this component, so they are not
modelled).  `interpolation` defaults to `cv2.INTER_LINEAR = 1`. -/
structure ImageResize where
  height : Int
  width : Int
  channels_first : Bool := false
  label_type : String := "classification"
  interpolation : Int := 1
  clip_values : Option (List ℚ) := none
  verbose : Bool := false

deriving DecidableEq

/-- Validation message for a non-positive height. -/
def heightMsg : String := "The desired image height must be positive."

/-- Validation message for a non-positive width (no trailing period in
the source). -/
def widthMsg : String := "The desired image width must be positive"

/-- Validation message for a clip range of the wrong arity. -/
def clipLenMsg : String :=
  "`clip_values` should be a tuple of 2 floats containing the allowed data range."

/-- Validation message for an inverted clip range. -/
def clipOrderMsg : String := "Invalid `clip_values`: min >= max."

/-- The message of the `TypeError` raised for malformed object-detection
labels. -/
def wrongTypeMsg : String := "Wrong type for `y` and label_type=object_detection."

/-- Embedding of `ImageResize._check_params`: the validator run once at
construction.  Mirrors the four checks and their order. -/
def ImageResize.check_params (cfg : ImageResize) : Except Err Unit :=
  if cfg.height ≤ 0 then .error (.valueError heightMsg)
  else if cfg.width ≤ 0 then .error (.valueError widthMsg)
  else
    match cfg.clip_values with
    | none => .ok ()
    | some cv =>
      if cv.length ≠ 2 then .error (.valueError clipLenMsg)
      else if cv.getD 1 0 ≤ cv.getD 0 0 then .error (.valueError clipOrderMsg)
      else .ok ()

/-- Embedding of `np.transpose(x_i, (1, 2, 0))`: from `(C, H, W)` to
`(H, W, C)`; `out[i][j][k] = x[k][i][j]`.  Dimensions are read off the
nested list (exact for well-formed rectangular input with at least one
channel, matching the numpy shape metadata). -/
def transpose120 (x : Img) : Img :=
  let h := (x.headD []).length
  let w := ((x.headD []).headD []).length
  (List.range h).map fun i =>
    (List.range w).map fun j =>
      x.map fun plane => (plane.getD i []).getD j 0

/-- Embedding of `np.transpose(x_resized, (2, 0, 1))`: from `(H, W, C)`
back to `(C, H, W)`; `out[k][i][j] = x[i][j][k]`. -/
def transpose201 (x : Img) : Img :=
  let c := ((x.headD []).headD []).length
  (List.range c).map fun k =>
    x.map fun row => row.map fun px => px.getD k 0

/-- The image handed to the resampler: the source transposes a
channels-first input to height-width-channels order first
(`x_i = np.transpose(x_i, (1, 2, 0))`), and this reassigned `x_i` is
also the array whose shape feeds the box-scaling factors. -/
def hwcOf (cfg : ImageResize) (xi : Img) : Img :=
  if cfg.channels_first then transpose120 xi else xi

/-- Per-image image pipeline of the loop body: optional transpose to
HWC, the `cv2.resize(x_i, (self.width, self.height), interpolation)`
call (note the `(width, height)` order of `dsize`), and the transpose
back for channels-first data. -/
def outImg (cfg : ImageResize) (R : Resampler) (xi : Img) : Img :=
  let x_resized := R (hwcOf cfg xi) (cfg.width, cfg.height) cfg.interpolation
  if cfg.channels_first then transpose201 x_resized else x_resized

/-- Embedding of the column assignment `rows[:, j] *= s` on a 2-D
array: every row gets entry `j` multiplied by `s`. -/
def scaleCol (s : ℚ) (j : Nat) (rows : List (List ℚ)) : List (List ℚ) :=
  rows.map fun r => r.set j (r.getD j 0 * s)

/-- The four sequential column assignments of the source: columns 0 and
2 by `width_scale`, columns 1 and 3 by `height_scale`. -/
def scaleBoxes (ws hs : ℚ) (rows : List (List ℚ)) : List (List ℚ) :=
  scaleCol hs 3 (scaleCol ws 2 (scaleCol hs 1 (scaleCol ws 0 rows)))

/-- Embedding of the per-record label step: the shallow copy
`y_resized = ... np.copy(v) ...` (pure value copy here; the aliasing
side is modelled separately on a store), the `y_resized["boxes"]`
lookup (`KeyError` when absent), and the four column assignments.
Indexing `[:, j]` on a 1-D array or past the column count raises
`IndexError` in numpy; nested lists carry no column count for an empty
row list, so the bound check is per row.  Python dict keys are unique,
so replacing every entry named `"boxes"` agrees with the dict update. -/
def resizeRecord (ws hs : ℚ) (d : List (String × Arr)) :
    Except Err (List (String × Arr)) :=
  match List.lookup "boxes" d with
  | none => .error (.keyError "boxes")
  | some (.a1 _) => .error (.indexError "too many indices for array")
  | some (.a2 rows) =>
    if ∀ r ∈ rows, 4 ≤ r.length then
      .ok (d.map fun kv => if kv.1 = "boxes" then (kv.1, Arr.a2 (scaleBoxes ws hs rows)) else kv)
    else .error (.indexError "index is out of bounds for axis 1")

/-- Embedding of the object-detection label branch of the loop body for
image `i`: the `isinstance(y, list)` test (`TypeError` otherwise), the
`y[i]` access, the `isinstance(y_i, dict)` test (`TypeError`
otherwise), the scale factors read from the pre-resize HWC shape
(`height, width, _ = x_i.shape`), and the record rescaling.  (With a
zero original dimension Python would raise `ZeroDivisionError`; the
rational division is total, and the theorems below restrict to images
with positive spatial dimensions where it matters.) -/
def stepLabel (cfg : ImageResize) (yv : YVal) (i : Nat) (xi : Img) :
    Except Err (List (String × Arr)) :=
  match yv with
  | .list l =>
    match l.get? i with
    | none => .error (.indexError "list index out of range")
    | some (.dict d) =>
      let x_hwc := hwcOf cfg xi
      let height_scale : ℚ := (cfg.height : ℚ) / (x_hwc.length : ℚ)
      let width_scale : ℚ := (cfg.width : ℚ) / ((x_hwc.headD []).length : ℚ)
      resizeRecord width_scale height_scale d
    | some .nonDict => .error (.typeError wrongTypeMsg)
  | _ => .error (.typeError wrongTypeMsg)

/-- The `for i, x_i in enumerate(...)` loop of `__call__`, accumulating
the resized images and (for object detection with labels) the rescaled
records; an exception aborts the whole call. -/
def transformLoop (cfg : ImageResize) (R : Resampler) (y : Option YVal) :
    List Img → Nat → Except Err (List Img × List (List (String × Arr)))
  | [], _ => .ok ([], [])
  | xi :: rest, i =>
    let out := outImg cfg R xi
    if cfg.label_type = "object_detection" then
      match y with
      | some yv => do
        let d ← stepLabel cfg yv i xi
        let (ri, rl) ← transformLoop cfg R y rest (i + 1)
        pure (out :: ri, d :: rl)
      | none => do
        let (ri, rl) ← transformLoop cfg R y rest (i + 1)
        pure (out :: ri, rl)
    else do
      let (ri, rl) ← transformLoop cfg R y rest (i + 1)
      pure (out :: ri, rl)

/-- The nested length structure of a 3-D image; two rectangular arrays
have the same numpy shape exactly when their length structures agree. -/
def lenSig (x : Img) : Nat × List (Nat × List Nat) :=
  (x.length, x.map fun p => (p.length, p.map List.length))

/-- Embedding of `np.stack`: fails on an empty list ("need at least one
array to stack") and on mismatched shapes; otherwise the stacked batch
is the list of images along a new leading axis. -/
def npStack (l : List Img) : Except Err (List Img) :=
  match l with
  | [] => .error (.valueError "need at least one array to stack")
  | a :: rest =>
    if ∀ b ∈ rest, lenSig b = lenSig a then .ok (a :: rest)
    else .error (.valueError "all input arrays must have the same shape")

/-- Embedding of `np.clip(batch, lo, hi)`:
`np.minimum(hi, np.maximum(lo, v))` elementwise. -/
def npClip (lo hi : ℚ) (batch : List Img) : List Img :=
  batch.map fun img => img.map fun row => row.map fun px =>
    px.map fun v => min hi (max lo v)

/-- The post-stack clipping step of `__call__`:
`np.clip(x_preprocess, self.clip_values[0], self.clip_values[1])` when
a clip range is configured, identity otherwise. -/
def applyClip (cfg : ImageResize) (stacked : List Img) : List Img :=
  match cfg.clip_values with
  | some cv => npClip (cv.getD 0 0) (cv.getD 1 0) stacked
  | none => stacked

/-- The label result of `__call__`: `y_preprocess` starts as a fresh
list when `y is not None and label_type == "object_detection"` and is
filled by the loop; otherwise it is `y` itself. -/
def youtOf (cfg : ImageResize) (y : Option YVal)
    (labs : List (List (String × Arr))) : Option YVal :=
  if cfg.label_type = "object_detection" then
    match y with
    | some _ => some (.list (labs.map YItem.dict))
    | none => none
  else y

/-- Embedding of `ImageResize.__call__`: the loop, `np.stack`, the
optional `np.clip`, and the label result. -/
def ImageResize.call (cfg : ImageResize) (R : Resampler) (x : List Img)
    (y : Option YVal) : Except Err (List Img × Option YVal) := do
  let (imgs, labs) ← transformLoop cfg R y x 0
  let stacked ← npStack imgs
  pure (applyClip cfg stacked, youtOf cfg y labs)

/-- Boolean well-formedness of a 3-D image with the given dimensions. -/
def isShape3 (x : Img) (d1 d2 d3 : Nat) : Bool :=
  x.length = d1 && x.all fun p => p.length = d2 && p.all fun r => r.length = d3

/-- The identity resampler, used as a concrete collaborator in witness
instantiations. -/
def idResampler : Resampler := fun img _ _ => img

deriving instance DecidableEq for Except

/-! ### Which errors the transform can raise -/

/-- The errors that can escape from the per-record label processing. -/
def labelErr (e : Err) : Prop :=
  e = .typeError wrongTypeMsg ∨
  e = .indexError "list index out of range" ∨
  e = .keyError "boxes" ∨
  e = .indexError "too many indices for array" ∨
  e = .indexError "index is out of bounds for axis 1"

/-- The errors that can escape from `__call__` as a whole: label errors
plus the two `np.stack` failures. -/
def callErr (e : Err) : Prop :=
  labelErr e ∨
  e = .valueError "need at least one array to stack" ∨
  e = .valueError "all input arrays must have the same shape"

/-! ### Box rescaling in the form of the specification -/

/-- The specification's description of one rescaled box row: entries 0
and 2 (x coordinates) multiplied by the width scale, entries 1 and 3
(y coordinates) by the height scale, any further entries untouched, no
clamping.  Defined for rows of length at least 4 (shorter rows cannot
occur on a successful call). -/
def scaleRowSpec (ws hs : ℚ) : List ℚ → List ℚ
  | x0 :: x1 :: x2 :: x3 :: rest => x0 * ws :: x1 * hs :: x2 * ws :: x3 * hs :: rest
  | r => r

/-! ### A store model of the label rescaling, for the aliasing claim

The value-level embedding above cannot express "the caller's arrays are
not mutated", so the label-processing lines are rendered once more over
an explicit store: numpy arrays live at addresses (indices into a list
of `Arr` cells), a record maps field names to addresses, `np.copy`
allocates a fresh cell, and the in-place `*=` column assignments update
the addressed cell.  The caller's cells are the ones present before the
call; freshly allocated cells are appended at the end. -/

/-- A store of numpy array cells; an address is an index. -/
abbrev Store : Type := List Arr

/-- Reading the cell at an address. -/
def readA (h : Store) (a : Nat) : Arr := h.getD a (.a1 [])

/-- Embedding of `np.copy(v)`: allocate a fresh cell holding the same
value, returning the new store and the fresh address. -/
def npCopyH (h : Store) (a : Nat) : Store × Nat :=
  (h ++ [readA h a], h.length)

/-- Embedding of `y_resized = {k: np.copy(v) for k, v in y_i.items()}`:
a new record whose every field points at a freshly copied cell. -/
def copyRecH : Store → List (String × Nat) → Store × List (String × Nat)
  | h, [] => (h, [])
  | h, (k, a) :: rest =>
    let p1 := npCopyH h a
    let p2 := copyRecH p1.1 rest
    (p2.1, (k, p1.2) :: p2.2)

/-- Embedding of the four in-place column assignments
`y_resized["boxes"][:, j] *= scale` on the cell at address `a`. -/
def scaleBoxesAtH (h : Store) (a : Nat) (ws hs : ℚ) : Except Err Store :=
  match readA h a with
  | .a1 _ => .error (.indexError "too many indices for array")
  | .a2 rows =>
    if ∀ r ∈ rows, 4 ≤ r.length then .ok (h.set a (.a2 (scaleBoxes ws hs rows)))
    else .error (.indexError "index is out of bounds for axis 1")

/-- Store-level rendering of the per-record label step: copy every
field, look up `"boxes"` in the copy, scale the copied cell in place. -/
def resizeRecordH (h : Store) (r : List (String × Nat)) (ws hs : ℚ) :
    Except Err (Store × List (String × Nat)) :=
  match List.lookup "boxes" (copyRecH h r).2 with
  | none => .error (.keyError "boxes")
  | some a => (scaleBoxesAtH (copyRecH h r).1 a ws hs).map fun h2 => (h2, (copyRecH h r).2)

/-- Store-level rendering of the label half of the loop: each input
record is processed with its per-image scale factors, in order. -/
def resizeLabelsH : Store → List (List (String × Nat) × ℚ × ℚ) →
    Except Err (Store × List (List (String × Nat)))
  | h, [] => .ok (h, [])
  | h, (r, ws, hs) :: rest => do
    let p1 ← resizeRecordH h r ws hs
    let p2 ← resizeLabelsH p1.1 rest
    pure (p2.1, p1.2 :: p2.2)

/-! ### Concrete fixtures used by witness instantiations -/

/-- A plain valid channels-last configuration. -/
def cfgPlain : ImageResize := { height := 2, width := 3 }

/-- A valid object-detection configuration with target size 1 by 1. -/
def cfgOD : ImageResize := { height := 1, width := 1, label_type := "object_detection" }

/-- A valid configuration clipping to the unit interval. -/
def cfgClip : ImageResize := { height := 1, width := 1, clip_values := some [0, 1] }

/-- A configuration with a misspelled label-type tag. -/
def cfgMiss : ImageResize := { height := 1, width := 1, label_type := "object-detection" }

/-- A resampler producing a fixed 2 by 3 by 1 image, matching
`cfgPlain`. -/
def upResampler : Resampler := fun _ _ _ => [[[1], [2], [3]], [[4], [5], [6]]]

/-- A resampler producing pixel values outside the unit interval. -/
def hotResampler : Resampler := fun _ _ _ => [[[3 / 2, -(1 / 5)]]]

/-- A resampler agreeing with `idResampler` only on `dsize = (3, 2)`. -/
def altResampler : Resampler := fun img dsize _ => if dsize = ((3 : Int), (2 : Int)) then img else []

/-- The 100 by 200 by 1 image of the specification's worked example. -/
def imgSpec : Img := List.replicate 100 (List.replicate 200 [0])

example : ImageResize.check_params { height := 2, width := 3 } = .ok () := by decide

example : ImageResize.check_params { height := 0, width := 3 } =
    .error (.valueError heightMsg) := by decide

example : ImageResize.check_params { height := 2, width := 3, clip_values := some [1, 0] } =
    .error (.valueError clipOrderMsg) := by decide

example :
    ImageResize.call { height := 1, width := 2 } idResampler [] none =
      .error (.valueError "need at least one array to stack") := by decide

example :
    ImageResize.call { height := 1, width := 1 } idResampler [[[[5]]]] none =
      .ok ([[[[5]]]], none) := by decide

example :
    ImageResize.call { height := 1, width := 1, clip_values := some [0, 1] } idResampler
      [[[[(3 : ℚ)/2, -(1 : ℚ)/5]]]] none =
      .ok ([[[[1, 0]]]], none) := by decide

example :
    ImageResize.call { height := 1, width := 1, label_type := "object_detection" } idResampler
      [[[[5]], [[6]]]] (some (.list [.dict [("boxes", .a2 [[2, 2, 2, 2]])]])) =
      .ok ([[[[5]], [[6]]]],
        some (.list [.dict [("boxes", .a2 [[2, 1, 2, 1]])]])) := by decide

example :
    ImageResize.call { height := 1, width := 1, label_type := "object_detection" } idResampler
      [[[[5]]]] (some (.dict [("boxes", .a2 [[2, 2, 2, 2]])])) =
      .error (.typeError wrongTypeMsg) := by decide

example :
    ImageResize.call { height := 1, width := 1, label_type := "object_detection" } idResampler
      [[[[5]]]] (some (.list [.dict [("labels", .a1 [1])]])) =
      .error (.keyError "boxes") := by decide

example :
    transpose120 [[[1, 2], [3, 4]], [[5, 6], [7, 8]]] =
      [[[1, 5], [2, 6]], [[3, 7], [4, 8]]] := by decide

example :
    transpose201 [[[1, 5], [2, 6]], [[3, 7], [4, 8]]] =
      [[[1, 2], [3, 4]], [[5, 6], [7, 8]]] := by decide

/-- The object-detection configuration of the specification's worked
example: resize to 50 by 50. -/
def cfgSpec : ImageResize := { height := 50, width := 50, label_type := "object_detection" }

/-! ### Lemmas about the loop, the stack and the call -/

lemma transformLoop_not_od {cfg : ImageResize} (R : Resampler) (y : Option YVal)
    (hlt : cfg.label_type ≠ "object_detection") :
    ∀ (x : List Img) (i : Nat),
      transformLoop cfg R y x i = .ok (x.map (outImg cfg R), []) := by
  intro x
  induction x with
  | nil => intro i; rfl
  | cons xi rest ih =>
    intro i
    simp only [transformLoop, if_neg hlt, ih (i + 1), List.map_cons]
    rfl

lemma transformLoop_none (cfg : ImageResize) (R : Resampler) :
    ∀ (x : List Img) (i : Nat),
      transformLoop cfg R none x i = .ok (x.map (outImg cfg R), []) := by
  intro x
  induction x with
  | nil => intro i; rfl
  | cons xi rest ih =>
    intro i
    by_cases hod : cfg.label_type = "object_detection"
    · simp only [transformLoop, if_pos hod, ih (i + 1), List.map_cons]
      rfl
    · simp only [transformLoop, if_neg hod, ih (i + 1), List.map_cons]
      rfl

lemma transformLoop_cons_od {cfg : ImageResize} (R : Resampler) {yv : YVal}
    (hod : cfg.label_type = "object_detection") (xi : Img) (rest : List Img) (i : Nat) :
    transformLoop cfg R (some yv) (xi :: rest) i =
      (stepLabel cfg yv i xi).bind fun d =>
        (transformLoop cfg R (some yv) rest (i + 1)).bind fun p =>
          .ok (outImg cfg R xi :: p.1, d :: p.2) := by
  simp only [transformLoop, if_pos hod]
  cases stepLabel cfg yv i xi with
  | error e => rfl
  | ok d =>
    cases transformLoop cfg R (some yv) rest (i + 1) with
    | error e => rfl
    | ok p => rfl

lemma transformLoop_cons_od_none {cfg : ImageResize} (R : Resampler)
    (hod : cfg.label_type = "object_detection") (xi : Img) (rest : List Img) (i : Nat) :
    transformLoop cfg R none (xi :: rest) i =
      (transformLoop cfg R none rest (i + 1)).bind fun p =>
        .ok (outImg cfg R xi :: p.1, p.2) := by
  simp only [transformLoop, if_pos hod]
  cases transformLoop cfg R none rest (i + 1) with
  | error e => rfl
  | ok p => rfl

lemma transformLoop_cons_not_od {cfg : ImageResize} (R : Resampler) (y : Option YVal)
    (hod : cfg.label_type ≠ "object_detection") (xi : Img) (rest : List Img) (i : Nat) :
    transformLoop cfg R y (xi :: rest) i =
      (transformLoop cfg R y rest (i + 1)).bind fun p =>
        .ok (outImg cfg R xi :: p.1, p.2) := by
  simp only [transformLoop, if_neg hod]
  cases transformLoop cfg R y rest (i + 1) with
  | error e => rfl
  | ok p => rfl

lemma transformLoop_ok_imgs {cfg : ImageResize} {R : Resampler} {y : Option YVal} :
    ∀ {x : List Img} {i : Nat} {imgs : List Img} {labs : List (List (String × Arr))},
      transformLoop cfg R y x i = .ok (imgs, labs) → imgs = x.map (outImg cfg R) := by
  intro x
  induction x with
  | nil =>
    intro i imgs labs h
    simp only [transformLoop] at h
    cases h
    rfl
  | cons xi rest ih =>
    intro i imgs labs h
    by_cases hod : cfg.label_type = "object_detection"
    · cases y with
      | none =>
        rw [transformLoop_cons_od_none R hod] at h
        cases hrec : transformLoop cfg R none rest (i + 1) with
        | error e => rw [hrec] at h; exact absurd h (by simp [Except.bind])
        | ok p =>
          rw [hrec] at h
          simp only [Except.bind, Except.ok.injEq, Prod.mk.injEq] at h
          rw [← h.1, ih hrec, List.map_cons]
      | some yv =>
        rw [transformLoop_cons_od R hod] at h
        cases hstep : stepLabel cfg yv i xi with
        | error e => rw [hstep] at h; exact absurd h (by simp [Except.bind])
        | ok d =>
          rw [hstep] at h
          cases hrec : transformLoop cfg R (some yv) rest (i + 1) with
          | error e => rw [hrec] at h; exact absurd h (by simp [Except.bind])
          | ok p =>
            rw [hrec] at h
            simp only [Except.bind, Except.ok.injEq, Prod.mk.injEq] at h
            rw [← h.1, ih hrec, List.map_cons]
    · rw [transformLoop_cons_not_od R y hod] at h
      cases hrec : transformLoop cfg R y rest (i + 1) with
      | error e => rw [hrec] at h; exact absurd h (by simp [Except.bind])
      | ok p =>
        rw [hrec] at h
        simp only [Except.bind, Except.ok.injEq, Prod.mk.injEq] at h
        rw [← h.1, ih hrec, List.map_cons]

lemma npStack_ok {l l' : List Img} (h : npStack l = .ok l') : l' = l ∧ l ≠ [] := by
  cases l with
  | nil => exact absurd h (by simp [npStack])
  | cons a rest =>
    simp only [npStack] at h
    by_cases hsig : ∀ b ∈ rest, lenSig b = lenSig a
    · rw [if_pos hsig] at h
      cases h
      exact ⟨rfl, by simp⟩
    · rw [if_neg hsig] at h
      cases h

lemma npStack_ok_of {a : Img} {rest : List Img}
    (hsig : ∀ b ∈ rest, lenSig b = lenSig a) : npStack (a :: rest) = .ok (a :: rest) := by
  simp only [npStack, if_pos hsig]

lemma call_ok_elim {cfg : ImageResize} {R : Resampler} {x : List Img} {y : Option YVal}
    {out : List Img} {yout : Option YVal}
    (h : ImageResize.call cfg R x y = .ok (out, yout)) :
    ∃ imgs labs, transformLoop cfg R y x 0 = .ok (imgs, labs) ∧
      npStack imgs = .ok imgs ∧ out = applyClip cfg imgs ∧ yout = youtOf cfg y labs := by
  simp only [ImageResize.call] at h
  cases hloop : transformLoop cfg R y x 0 with
  | error e => rw [hloop] at h; exact absurd h (by simp [Bind.bind, Except.bind])
  | ok p =>
    rw [hloop] at h
    obtain ⟨imgs, labs⟩ := p
    simp only [Bind.bind, Except.bind] at h
    cases hstack : npStack imgs with
    | error e =>
      rw [hstack] at h
      exact absurd h (by simp [Bind.bind, Except.bind])
    | ok stacked =>
      rw [hstack] at h
      simp only [Bind.bind, Except.bind, pure, Except.pure, Except.ok.injEq,
        Prod.mk.injEq] at h
      obtain ⟨hs1, hs2⟩ := h
      obtain ⟨heq, -⟩ := npStack_ok hstack
      rw [heq] at hstack hs1
      exact ⟨imgs, labs, rfl, hstack, hs1.symm, hs2.symm⟩

lemma call_ok_intro {cfg : ImageResize} {R : Resampler} {x : List Img} {y : Option YVal}
    {imgs : List Img} {labs : List (List (String × Arr))}
    (hloop : transformLoop cfg R y x 0 = .ok (imgs, labs))
    (hstack : npStack imgs = .ok imgs) :
    ImageResize.call cfg R x y = .ok (applyClip cfg imgs, youtOf cfg y labs) := by
  simp only [ImageResize.call, hloop, hstack, Bind.bind, Except.bind, pure, Except.pure]

lemma call_error_of_loop {cfg : ImageResize} {R : Resampler} {x : List Img}
    {y : Option YVal} {e : Err} (hloop : transformLoop cfg R y x 0 = .error e) :
    ImageResize.call cfg R x y = .error e := by
  simp only [ImageResize.call, hloop, Bind.bind, Except.bind]

lemma transformLoop_od_labels {cfg : ImageResize} {R : Resampler} {yv : YVal}
    (hod : cfg.label_type = "object_detection") :
    ∀ {x : List Img} {i : Nat} {imgs : List Img} {labs : List (List (String × Arr))},
      transformLoop cfg R (some yv) x i = .ok (imgs, labs) →
        labs.length = x.length ∧
        ∀ j, j < x.length → stepLabel cfg yv (i + j) (x.getD j []) = .ok (labs.getD j []) := by
  intro x
  induction x with
  | nil =>
    intro i imgs labs h
    simp only [transformLoop] at h
    cases h
    exact ⟨rfl, by intro j hj; exact absurd hj (by simp)⟩
  | cons xi rest ih =>
    intro i imgs labs h
    rw [transformLoop_cons_od R hod] at h
    cases hstep : stepLabel cfg yv i xi with
    | error e => rw [hstep] at h; exact absurd h (by simp [Except.bind])
    | ok d =>
      rw [hstep] at h
      cases hrec : transformLoop cfg R (some yv) rest (i + 1) with
      | error e => rw [hrec] at h; exact absurd h (by simp [Except.bind])
      | ok p =>
        rw [hrec] at h
        simp only [Except.bind, Except.ok.injEq, Prod.mk.injEq] at h
        obtain ⟨h1, h2⟩ := h
        obtain ⟨ihlen, ihstep⟩ := ih hrec
        subst h2
        constructor
        · simp only [List.length_cons, ihlen]
        · intro j hj
          cases j with
          | zero =>
            simp only [List.getD_cons_zero, Nat.add_zero]
            exact hstep
          | succ j =>
            have hj' : j < rest.length := by simp at hj; omega
            have hs := ihstep j hj'
            have hidx : i + (j + 1) = (i + 1) + j := by omega
            simp only [List.getD_cons_succ, hidx]
            exact hs

lemma resizeRecord_error {ws hs : ℚ} {d : List (String × Arr)} {e : Err}
    (h : resizeRecord ws hs d = .error e) :
    e = .keyError "boxes" ∨ e = .indexError "too many indices for array" ∨
    e = .indexError "index is out of bounds for axis 1" := by
  unfold resizeRecord at h
  split at h
  · cases h
    exact Or.inl rfl
  · cases h
    exact Or.inr (Or.inl rfl)
  · split at h
    · cases h
    · cases h
      exact Or.inr (Or.inr rfl)

lemma stepLabel_error {cfg : ImageResize} {yv : YVal} {i : Nat} {xi : Img} {e : Err}
    (h : stepLabel cfg yv i xi = .error e) : labelErr e := by
  unfold stepLabel at h
  split at h
  · split at h
    · cases h
      exact Or.inr (Or.inl rfl)
    · rcases resizeRecord_error h with h' | h' | h'
      · exact Or.inr (Or.inr (Or.inl h'))
      · exact Or.inr (Or.inr (Or.inr (Or.inl h')))
      · exact Or.inr (Or.inr (Or.inr (Or.inr h')))
    · cases h
      exact Or.inl rfl
  · cases h
    exact Or.inl rfl

lemma stepLabel_typeError {cfg : ImageResize} {yv : YVal} {i : Nat} {xi : Img} {m : String}
    (h : stepLabel cfg yv i xi = .error (.typeError m)) :
    m = wrongTypeMsg ∧
      ((¬ ∃ l, yv = YVal.list l) ∨ ∃ l, yv = .list l ∧ l.get? i = some .nonDict) := by
  unfold stepLabel at h
  split at h
  · rename_i l
    split at h
    · exact absurd h (by simp)
    · rcases resizeRecord_error h with h' | h' | h' <;> exact absurd h' (by simp)
    · rename_i hget
      cases h
      exact ⟨rfl, Or.inr ⟨l, rfl, hget⟩⟩
  · rename_i hnl
    cases h
    refine ⟨rfl, Or.inl ?_⟩
    rintro ⟨l, rfl⟩
    exact hnl l rfl

lemma transformLoop_error {cfg : ImageResize} {R : Resampler} {y : Option YVal} :
    ∀ {x : List Img} {i : Nat} {e : Err},
      transformLoop cfg R y x i = .error e → labelErr e := by
  intro x
  induction x with
  | nil =>
    intro i e h
    exact absurd h (by simp [transformLoop])
  | cons xi rest ih =>
    intro i e h
    by_cases hod : cfg.label_type = "object_detection"
    · cases y with
      | none =>
        rw [transformLoop_cons_od_none R hod] at h
        cases hrec : transformLoop cfg R none rest (i + 1) with
        | error e' =>
          rw [hrec] at h
          simp only [Except.bind] at h
          cases h
          exact ih hrec
        | ok p => rw [hrec] at h; exact absurd h (by simp [Except.bind])
      | some yv =>
        rw [transformLoop_cons_od R hod] at h
        cases hstep : stepLabel cfg yv i xi with
        | error e' =>
          rw [hstep] at h
          simp only [Except.bind] at h
          cases h
          exact stepLabel_error hstep
        | ok d =>
          rw [hstep] at h
          cases hrec : transformLoop cfg R (some yv) rest (i + 1) with
          | error e' =>
            rw [hrec] at h
            simp only [Except.bind] at h
            cases h
            exact ih hrec
          | ok p => rw [hrec] at h; exact absurd h (by simp [Except.bind])
    · rw [transformLoop_cons_not_od R y hod] at h
      cases hrec : transformLoop cfg R y rest (i + 1) with
      | error e' =>
        rw [hrec] at h
        simp only [Except.bind] at h
        cases h
        exact ih hrec
      | ok p => rw [hrec] at h; exact absurd h (by simp [Except.bind])

lemma npStack_error {l : List Img} {e : Err} (h : npStack l = .error e) :
    e = .valueError "need at least one array to stack" ∨
    e = .valueError "all input arrays must have the same shape" := by
  cases l with
  | nil =>
    cases h
    exact Or.inl rfl
  | cons a rest =>
    simp only [npStack] at h
    by_cases hsig : ∀ b ∈ rest, lenSig b = lenSig a
    · rw [if_pos hsig] at h; cases h
    · rw [if_neg hsig] at h
      cases h
      exact Or.inr rfl

lemma call_error {cfg : ImageResize} {R : Resampler} {x : List Img} {y : Option YVal}
    {e : Err} (h : ImageResize.call cfg R x y = .error e) : callErr e := by
  simp only [ImageResize.call] at h
  cases hloop : transformLoop cfg R y x 0 with
  | error e' =>
    rw [hloop] at h
    simp only [Bind.bind, Except.bind] at h
    cases h
    exact Or.inl (transformLoop_error hloop)
  | ok p =>
    rw [hloop] at h
    obtain ⟨imgs, labs⟩ := p
    simp only [Bind.bind, Except.bind] at h
    cases hstack : npStack imgs with
    | error e' =>
      rw [hstack] at h
      simp only [Except.bind] at h
      cases h
      exact Or.inr (npStack_error hstack)
    | ok stacked =>
      rw [hstack] at h
      exact absurd h (by simp [pure, Except.pure])

/-! ### Shape lemmas -/

lemma isShape3_iff {x : Img} {d1 d2 d3 : Nat} :
    isShape3 x d1 d2 d3 = true ↔
      x.length = d1 ∧ ∀ p ∈ x, p.length = d2 ∧ ∀ r ∈ p, r.length = d3 := by
  simp [isShape3]

lemma lenSig_of_isShape3 {x : Img} {d1 d2 d3 : Nat} (h : isShape3 x d1 d2 d3 = true) :
    lenSig x = (d1, List.replicate d1 (d2, List.replicate d2 d3)) := by
  rw [isShape3_iff] at h
  obtain ⟨h1, h2⟩ := h
  unfold lenSig
  refine Prod.ext ?_ ?_
  · simpa using h1
  · simp only
    refine List.eq_replicate_iff.mpr ⟨by simpa using h1, ?_⟩
    intro q hq
    obtain ⟨p, hp, rfl⟩ := List.mem_map.mp hq
    obtain ⟨hpl, hpr⟩ := h2 p hp
    refine Prod.ext (by simpa using hpl) ?_
    simp only
    refine List.eq_replicate_iff.mpr ⟨by simpa using hpl, ?_⟩
    intro n hn
    obtain ⟨r, hr, rfl⟩ := List.mem_map.mp hn
    exact hpr r hr

lemma isShape3_transpose120 {x : Img} {c a b : Nat}
    (h : isShape3 x c a b = true) (hc : 0 < c) :
    isShape3 (transpose120 x) a b c = true := by
  rw [isShape3_iff] at h
  obtain ⟨h1, h2⟩ := h
  cases x with
  | nil => simp at h1; omega
  | cons p rest =>
    have hp := h2 p (by simp)
    rw [isShape3_iff]
    unfold transpose120
    constructor
    · simp [hp.1]
    · intro q hq
      simp only [List.headD_cons, List.mem_map, List.mem_range] at hq
      obtain ⟨i, hi, rfl⟩ := hq
      constructor
      · rcases p with - | ⟨r, prest⟩
        · exact absurd hi (by simp)
        · have hr := hp.2 r (by simp)
          simp [hr]
      · intro px hpx
        simp only [List.mem_map, List.mem_range] at hpx
        obtain ⟨j, hj, rfl⟩ := hpx
        simpa using h1

lemma isShape3_transpose201 {x : Img} {a b c : Nat}
    (h : isShape3 x a b c = true) (ha : 0 < a) (hb : 0 < b) :
    isShape3 (transpose201 x) c a b = true := by
  rw [isShape3_iff] at h
  obtain ⟨h1, h2⟩ := h
  cases x with
  | nil => simp at h1; omega
  | cons p rest =>
    have hp := h2 p (by simp)
    rcases p with - | ⟨r, prest⟩
    · simp at hp; omega
    · have hr := hp.2 r (by simp)
      rw [isShape3_iff]
      unfold transpose201
      constructor
      · simp [hr]
      · intro q hq
        simp only [List.headD_cons, List.mem_map, List.mem_range] at hq
        obtain ⟨k, hk, rfl⟩ := hq
        constructor
        · simpa using h1
        · intro row hrow
          simp only [List.mem_map] at hrow
          obtain ⟨p', hp', rfl⟩ := hrow
          simpa using (h2 p' hp').1

lemma isShape3_mapPx {f : ℚ → ℚ} {x : Img} {d1 d2 d3 : Nat}
    (h : isShape3 x d1 d2 d3 = true) :
    isShape3 (x.map fun row => row.map fun px => px.map f) d1 d2 d3 = true := by
  rw [isShape3_iff] at h ⊢
  obtain ⟨h1, h2⟩ := h
  constructor
  · simpa using h1
  · intro p hp
    simp only [List.mem_map] at hp
    obtain ⟨p0, hp0, rfl⟩ := hp
    obtain ⟨hl, hr⟩ := h2 p0 hp0
    constructor
    · simpa using hl
    · intro r hr'
      simp only [List.mem_map] at hr'
      obtain ⟨r0, hr0, rfl⟩ := hr'
      simpa using hr r0 hr0

lemma applyClip_shape (cfg : ImageResize) {imgs : List Img} {d1 d2 d3 : Nat}
    (h : ∀ img ∈ imgs, isShape3 img d1 d2 d3 = true) :
    (applyClip cfg imgs).length = imgs.length ∧
      ∀ img ∈ applyClip cfg imgs, isShape3 img d1 d2 d3 = true := by
  unfold applyClip
  cases cfg.clip_values with
  | none => exact ⟨rfl, h⟩
  | some cv =>
    unfold npClip
    constructor
    · simp
    · intro img himg
      simp only [List.mem_map] at himg
      obtain ⟨img0, himg0, rfl⟩ := himg
      exact isShape3_mapPx (h img0 himg0)

lemma scaleBoxes_eq_spec {ws hs : ℚ} {rows : List (List ℚ)}
    (h : ∀ r ∈ rows, 4 ≤ r.length) :
    scaleBoxes ws hs rows = rows.map (scaleRowSpec ws hs) := by
  unfold scaleBoxes scaleCol
  simp only [List.map_map]
  apply List.map_congr_left
  intro r hr
  have h4 := h r hr
  match r, h4 with
  | x0 :: x1 :: x2 :: x3 :: rest, _ =>
    simp [List.set, List.getD, scaleRowSpec, Function.comp]

lemma resizeRecord_ok {ws hs : ℚ} {d d' : List (String × Arr)}
    (h : resizeRecord ws hs d = .ok d') :
    ∃ rows, List.lookup "boxes" d = some (.a2 rows) ∧ (∀ r ∈ rows, 4 ≤ r.length) ∧
      d' = d.map fun kv =>
        if kv.1 = "boxes" then (kv.1, Arr.a2 (rows.map (scaleRowSpec ws hs))) else kv := by
  unfold resizeRecord at h
  split at h
  · cases h
  · cases h
  · rename_i rows heq
    split at h
    · rename_i hall
      cases h
      exact ⟨rows, heq, hall, by rw [scaleBoxes_eq_spec hall]⟩
    · cases h

lemma stepLabel_ok {cfg : ImageResize} {yv : YVal} {i : Nat} {xi : Img}
    {d' : List (String × Arr)} (h : stepLabel cfg yv i xi = .ok d') :
    ∃ l d rows, yv = .list l ∧ l.get? i = some (.dict d) ∧
      List.lookup "boxes" d = some (.a2 rows) ∧ (∀ r ∈ rows, 4 ≤ r.length) ∧
      d' = d.map fun kv =>
        if kv.1 = "boxes" then
          (kv.1, Arr.a2 (rows.map (scaleRowSpec
            ((cfg.width : ℚ) / (((hwcOf cfg xi).headD []).length : ℚ))
            ((cfg.height : ℚ) / ((hwcOf cfg xi).length : ℚ)))))
        else kv := by
  unfold stepLabel at h
  split at h
  · rename_i l
    split at h
    · cases h
    · rename_i d hget
      obtain ⟨rows, h1, h2, h3⟩ := resizeRecord_ok h
      exact ⟨l, d, rows, rfl, hget, h1, h2, h3⟩
    · cases h
  · cases h

lemma readA_append {h : Store} {x : List Arr} {a : Nat} (ha : a < h.length) :
    readA (h ++ x) a = readA h a := by
  unfold readA
  rw [List.getD_eq_getElem?_getD, List.getD_eq_getElem?_getD,
    List.getElem?_append_left ha]

lemma lookup_mem {addr : Nat} :
    ∀ {r : List (String × Nat)} {k : String},
      List.lookup k r = some addr → (k, addr) ∈ r := by
  intro r
  induction r with
  | nil => intro k h; cases h
  | cons kv rest ih =>
    intro k h
    obtain ⟨k', v⟩ := kv
    simp only [List.lookup] at h
    cases hb : (k == k') with
    | true =>
      simp only [hb] at h
      cases h
      have hk : k = k' := by simpa using hb
      subst hk
      exact List.mem_cons_self _ _
    | false =>
      simp only [hb] at h
      exact List.mem_cons_of_mem _ (ih h)

lemma readA_set_ne {h : Store} {b : Nat} {v : Arr} {a : Nat} (hab : b ≠ a) :
    readA (h.set b v) a = readA h a := by
  unfold readA
  rw [List.getD_eq_getElem?_getD, List.getD_eq_getElem?_getD,
    List.getElem?_set_ne hab]

lemma copyRecH_spec :
    ∀ (r : List (String × Nat)) (h : Store),
      (copyRecH h r).1.length = h.length + r.length ∧
      (∀ a, a < h.length → readA (copyRecH h r).1 a = readA h a) ∧
      (∀ ka ∈ (copyRecH h r).2, h.length ≤ ka.2 ∧ ka.2 < (copyRecH h r).1.length) := by
  intro r
  induction r with
  | nil =>
    intro h
    exact ⟨by simp [copyRecH], by intro a ha; rfl, by simp [copyRecH]⟩
  | cons ka rest ih =>
    intro h
    obtain ⟨ihlen, ihpre, ihmem⟩ := ih (h ++ [readA h ka.2])
    refine ⟨?_, ?_, ?_⟩
    · simp only [copyRecH, npCopyH]
      rw [ihlen]
      simp
      omega
    · intro a ha
      simp only [copyRecH, npCopyH]
      rw [ihpre a (by simp; omega), readA_append ha]
    · intro p hp
      simp only [copyRecH, npCopyH, List.mem_cons] at hp ⊢
      rcases hp with rfl | hp
      · refine ⟨le_refl _, ?_⟩
        rw [ihlen]
        simp
        omega
      · have := ihmem p hp
        simp only [List.length_append, List.length_singleton] at this
        exact ⟨by omega, this.2⟩

lemma scaleBoxesAtH_spec {h : Store} {a : Nat} {ws hs : ℚ} {h' : Store}
    (hok : scaleBoxesAtH h a ws hs = .ok h') :
    h'.length = h.length ∧ ∀ b, b ≠ a → readA h' b = readA h b := by
  unfold scaleBoxesAtH at hok
  split at hok
  · cases hok
  · split at hok
    · cases hok
      exact ⟨by simp, fun b hb => readA_set_ne (by omega)⟩
    · cases hok

lemma resizeRecordH_spec {h : Store} {r : List (String × Nat)} {ws hs : ℚ}
    {h' : Store} {r' : List (String × Nat)}
    (hok : resizeRecordH h r ws hs = .ok (h', r')) :
    h.length ≤ h'.length ∧
    (∀ a, a < h.length → readA h' a = readA h a) ∧
    (∀ ka ∈ r', h.length ≤ ka.2) := by
  unfold resizeRecordH at hok
  obtain ⟨clen, cpre, cmem⟩ := copyRecH_spec r h
  split at hok
  · cases hok
  · rename_i addr hlk
    cases hscale : scaleBoxesAtH (copyRecH h r).1 addr ws hs with
    | error e => rw [hscale] at hok; cases hok
    | ok h2 =>
      rw [hscale] at hok
      simp only [Except.map, Except.ok.injEq, Prod.mk.injEq] at hok
      obtain ⟨rfl, rfl⟩ := hok
      obtain ⟨slen, spre⟩ := scaleBoxesAtH_spec hscale
      have haddr : h.length ≤ addr :=
        (cmem _ (lookup_mem hlk)).1
      refine ⟨by rw [slen, clen]; omega, ?_, fun ka hka => (cmem ka hka).1⟩
      intro a ha
      rw [spre a (by omega), cpre a ha]

lemma resizeLabelsH_spec :
    ∀ (rs : List (List (String × Nat) × ℚ × ℚ)) (h : Store) {h' : Store}
      {outs : List (List (String × Nat))},
      resizeLabelsH h rs = .ok (h', outs) →
        h.length ≤ h'.length ∧
        (∀ a, a < h.length → readA h' a = readA h a) ∧
        (∀ rec ∈ outs, ∀ ka ∈ rec, h.length ≤ ka.2) := by
  intro rs
  induction rs with
  | nil =>
    intro h h' outs hok
    cases hok
    exact ⟨le_refl _, fun a ha => rfl, by simp⟩
  | cons rw0 rest ih =>
    intro h h' outs hok
    obtain ⟨r, ws, hs⟩ := rw0
    simp only [resizeLabelsH] at hok
    cases hrec : resizeRecordH h r ws hs with
    | error e => rw [hrec] at hok; exact absurd hok (by simp [Bind.bind, Except.bind])
    | ok p1 =>
      rw [hrec] at hok
      obtain ⟨h1, r1⟩ := p1
      simp only [Bind.bind, Except.bind] at hok
      cases hrest : resizeLabelsH h1 rest with
      | error e => rw [hrest] at hok; exact absurd hok (by simp)
      | ok p2 =>
        rw [hrest] at hok
        obtain ⟨h2, outs2⟩ := p2
        simp only [pure, Except.pure, Except.ok.injEq, Prod.mk.injEq] at hok
        obtain ⟨rfl, rfl⟩ := hok
        obtain ⟨len1, pre1, mem1⟩ := resizeRecordH_spec hrec
        obtain ⟨len2, pre2, mem2⟩ := ih h1 hrest
        refine ⟨by omega, ?_, ?_⟩
        · intro a ha
          rw [pre2 a (by omega), pre1 a ha]
        · intro rec hrec' ka hka
          rcases List.mem_cons.mp hrec' with rfl | hrec'
          · exact mem1 ka hka
          · have := mem2 rec hrec' ka hka
            omega

lemma transformLoop_typeError {cfg : ImageResize} {R : Resampler} {yv : YVal} :
    ∀ {x : List Img} {i : Nat} {m : String},
      transformLoop cfg R (some yv) x i = .error (.typeError m) →
        m = wrongTypeMsg ∧
          ((¬ ∃ l, yv = YVal.list l) ∨ ∃ l j, yv = .list l ∧ l.get? j = some .nonDict) := by
  intro x
  induction x with
  | nil =>
    intro i m h
    exact absurd h (by simp [transformLoop])
  | cons xi rest ih =>
    intro i m h
    by_cases hod : cfg.label_type = "object_detection"
    · rw [transformLoop_cons_od R hod] at h
      cases hstep : stepLabel cfg yv i xi with
      | error e =>
        rw [hstep] at h
        simp only [Except.bind] at h
        cases h
        obtain ⟨hm, hcase⟩ := stepLabel_typeError hstep
        refine ⟨hm, ?_⟩
        rcases hcase with hc | ⟨l, hl, hj⟩
        · exact Or.inl hc
        · exact Or.inr ⟨l, i, hl, hj⟩
      | ok d =>
        rw [hstep] at h
        cases hrec : transformLoop cfg R (some yv) rest (i + 1) with
        | error e =>
          rw [hrec] at h
          simp only [Except.bind] at h
          cases h
          exact ih hrec
        | ok p => rw [hrec] at h; exact absurd h (by simp [Except.bind])
    · rw [transformLoop_cons_not_od R (some yv) hod] at h
      cases hrec : transformLoop cfg R (some yv) rest (i + 1) with
      | error e =>
        rw [hrec] at h
        simp only [Except.bind] at h
        cases h
        exact ih hrec
      | ok p => rw [hrec] at h; exact absurd h (by simp [Except.bind])

lemma youtOf_none {cfg : ImageResize} {labs : List (List (String × Arr))} :
    youtOf cfg none labs = none := by
  unfold youtOf
  split <;> rfl

lemma youtOf_not_od {cfg : ImageResize} {y : Option YVal}
    {labs : List (List (String × Arr))} (hlt : cfg.label_type ≠ "object_detection") :
    youtOf cfg y labs = y := by
  unfold youtOf
  rw [if_neg hlt]

lemma youtOf_od_some {cfg : ImageResize} {yv : YVal} {labs : List (List (String × Arr))}
    (hod : cfg.label_type = "object_detection") :
    youtOf cfg (some yv) labs = some (.list (labs.map YItem.dict)) := by
  unfold youtOf
  rw [if_pos hod]

lemma clip_eq_ite {lo hi v : ℚ} (h : lo ≤ hi) :
    min hi (max lo v) = if hi < v then hi else if v < lo then lo else v := by
  rcases lt_or_le hi v with h1 | h1
  · rw [if_pos h1, max_eq_right (le_of_lt (lt_of_le_of_lt h h1)), min_eq_left (le_of_lt h1)]
  · rw [if_neg (not_lt.mpr h1)]
    rcases lt_or_le v lo with h2 | h2
    · rw [if_pos h2, max_eq_left (le_of_lt h2), min_eq_right h]
    · rw [if_neg (not_lt.mpr h2), max_eq_right h2, min_eq_right h1]

lemma clip_mem_Icc {lo hi v : ℚ} (h : lo ≤ hi) :
    lo ≤ min hi (max lo v) ∧ min hi (max lo v) ≤ hi :=
  ⟨le_min h (le_max_left lo v), min_le_left hi (max lo v)⟩

lemma outImg_congr (cfg : ImageResize) {R R' : Resampler} {xi : Img}
    (h : R (hwcOf cfg xi) (cfg.width, cfg.height) cfg.interpolation =
      R' (hwcOf cfg xi) (cfg.width, cfg.height) cfg.interpolation) :
    outImg cfg R xi = outImg cfg R' xi := by
  unfold outImg
  rw [h]

lemma transformLoop_congr {cfg : ImageResize} {R R' : Resampler} {y : Option YVal} :
    ∀ {x : List Img} (i : Nat),
      (∀ xi ∈ x,
        R (hwcOf cfg xi) (cfg.width, cfg.height) cfg.interpolation =
        R' (hwcOf cfg xi) (cfg.width, cfg.height) cfg.interpolation) →
      transformLoop cfg R y x i = transformLoop cfg R' y x i := by
  intro x
  induction x with
  | nil => intro i h; rfl
  | cons xi rest ih =>
    intro i h
    have hhead := outImg_congr cfg (h xi (by simp))
    have htail := ih (i + 1) fun b hb => h b (List.mem_cons_of_mem _ hb)
    by_cases hod : cfg.label_type = "object_detection"
    · cases y with
      | none =>
        rw [transformLoop_cons_od_none R hod, transformLoop_cons_od_none R' hod,
          htail, hhead]
      | some yv =>
        rw [transformLoop_cons_od R hod, transformLoop_cons_od R' hod, htail, hhead]
    · rw [transformLoop_cons_not_od R y hod, transformLoop_cons_not_od R' y hod,
        htail, hhead]

lemma call_none_ok_shape {cfg : ImageResize} {R : Resampler} {x : List Img}
    {d1 d2 d3 : Nat} (hx : x ≠ [])
    (hshape : ∀ img ∈ x.map (outImg cfg R), isShape3 img d1 d2 d3 = true) :
    ∃ out, ImageResize.call cfg R x none = .ok (out, none) ∧ out.length = x.length ∧
      ∀ img ∈ out, isShape3 img d1 d2 d3 = true := by
  have hloop := transformLoop_none cfg R x 0
  cases himgs : x.map (outImg cfg R) with
  | nil =>
    exact absurd (List.map_eq_nil_iff.mp himgs) hx
  | cons a as =>
    rw [himgs] at hloop hshape
    have hsig : ∀ b ∈ as, lenSig b = lenSig a := by
      intro b hb
      rw [lenSig_of_isShape3 (hshape b (List.mem_cons_of_mem _ hb)),
        lenSig_of_isShape3 (hshape a (List.mem_cons_self _ _))]
    have hstack := npStack_ok_of hsig
    have hcall := call_ok_intro hloop hstack
    rw [youtOf_none] at hcall
    obtain ⟨hlen, hmem⟩ := applyClip_shape cfg hshape
    refine ⟨applyClip cfg (a :: as), hcall, ?_, hmem⟩
    rw [hlen, ← himgs, List.length_map]

/-! ### The claims -/

/-- C3 (counterexample): with a perfectly valid configuration, an empty
image batch does not return an empty stacked batch; `np.stack([])`
raises `ValueError`, so the call fails. -/
theorem empty_batch_counterexample :
    ImageResize.check_params cfgPlain = .ok () ∧
    ImageResize.call cfgPlain idResampler [] none =
      .error (.valueError "need at least one array to stack") :=
  ⟨by decide, by decide⟩

/-- C3 (amended): for every configuration, resampler and label value,
transform on the empty batch fails with the `ValueError` of `np.stack`
("need at least one array to stack"); no empty output batch is ever
produced. -/
theorem empty_batch_raises (cfg : ImageResize) (R : Resampler) (y : Option YVal) :
    ImageResize.call cfg R [] y =
      .error (.valueError "need at least one array to stack") := by
  have h0 : transformLoop cfg R y [] 0 = .ok ([], []) := rfl
  unfold ImageResize.call
  rw [h0]
  rfl

/-- C4: construction fails if and only if the height is non-positive,
the width is non-positive, or a supplied clip range has arity other
than 2 or min at least max; every failure is a `ValueError` with one of
the four validation messages; and no call of the transform ever raises
one of those four configuration errors. -/
theorem check_params_characterization (cfg : ImageResize) (R : Resampler)
    (x : List Img) (y : Option YVal) :
    ((∃ e, cfg.check_params = .error e) ↔
      (cfg.height ≤ 0 ∨ cfg.width ≤ 0 ∨
        ∃ cv, cfg.clip_values = some cv ∧ (cv.length ≠ 2 ∨ cv.getD 1 0 ≤ cv.getD 0 0))) ∧
    (∀ e, cfg.check_params = .error e →
      e = .valueError heightMsg ∨ e = .valueError widthMsg ∨
      e = .valueError clipLenMsg ∨ e = .valueError clipOrderMsg) ∧
    (∀ e, ImageResize.call cfg R x y = .error e →
      e ≠ .valueError heightMsg ∧ e ≠ .valueError widthMsg ∧
      e ≠ .valueError clipLenMsg ∧ e ≠ .valueError clipOrderMsg) := by
  refine ⟨⟨?_, ?_⟩, ?_, ?_⟩
  · intro ⟨e, he⟩
    unfold ImageResize.check_params at he
    split at he
    · rename_i h1
      exact Or.inl h1
    · split at he
      · rename_i h2
        exact Or.inr (Or.inl h2)
      · split at he
        · cases he
        · rename_i cv hcv
          split at he
          · rename_i h3
            exact Or.inr (Or.inr ⟨cv, hcv, Or.inl h3⟩)
          · split at he
            · rename_i h4
              exact Or.inr (Or.inr ⟨cv, hcv, Or.inr h4⟩)
            · cases he
  · intro hbad
    unfold ImageResize.check_params
    split
    · exact ⟨_, rfl⟩
    · rename_i h1
      split
      · exact ⟨_, rfl⟩
      · rename_i h2
        split
        · rename_i hcv
          rcases hbad with hb | hb | ⟨cv, hcv', hb⟩
          · exact absurd hb h1
          · exact absurd hb h2
          · rw [hcv] at hcv'; cases hcv'
        · rename_i cv hcv
          split
          · exact ⟨_, rfl⟩
          · rename_i h3
            split
            · exact ⟨_, rfl⟩
            · rename_i h4
              rcases hbad with hb | hb | ⟨cv', hcv', hb⟩
              · exact absurd hb h1
              · exact absurd hb h2
              · rw [hcv] at hcv'
                cases hcv'
                rcases hb with hb | hb
                · exact absurd hb h3
                · exact absurd hb h4
  · intro e he
    unfold ImageResize.check_params at he
    split at he
    · cases he; exact Or.inl rfl
    · split at he
      · cases he; exact Or.inr (Or.inl rfl)
      · split at he
        · cases he
        · split at he
          · cases he; exact Or.inr (Or.inr (Or.inl rfl))
          · split at he
            · cases he; exact Or.inr (Or.inr (Or.inr rfl))
            · cases he
  · intro e he
    have hcases := call_error he
    rcases hcases with (h' | h' | h' | h' | h') | h' | h' <;>
      subst h' <;>
      exact ⟨by decide, by decide, by decide, by decide⟩

/-- C4 (witness): a zero height really is rejected, and the one
`ValueError` a call can raise (the empty-stack error) is none of the
four configuration errors. -/
theorem check_params_characterization_witness :
    (∃ e, ImageResize.check_params { height := 0, width := 3 } = .error e) ∧
    ((Err.valueError "need at least one array to stack") ≠ .valueError heightMsg ∧
      (Err.valueError "need at least one array to stack") ≠ .valueError widthMsg ∧
      (Err.valueError "need at least one array to stack") ≠ .valueError clipLenMsg ∧
      (Err.valueError "need at least one array to stack") ≠ .valueError clipOrderMsg) :=
  ⟨(check_params_characterization { height := 0, width := 3 } idResampler [] none).1.mpr
      (Or.inl (by decide)),
    (check_params_characterization cfgPlain idResampler [] none).2.2 _ (by decide)⟩

/-- C9: with label kind `classification`, whatever labels value is
passed in (including `None`) comes back out unchanged. -/
theorem classification_labels_passthrough (cfg : ImageResize) (R : Resampler)
    (x : List Img) (y : Option YVal) (out : List Img) (yout : Option YVal)
    (hcl : cfg.label_type = "classification")
    (hok : ImageResize.call cfg R x y = .ok (out, yout)) : yout = y := by
  obtain ⟨imgs, labs, hloop, hstack, hclip, hyout⟩ := call_ok_elim hok
  rw [hyout]
  exact youtOf_not_od (by rw [hcl]; decide)

/-- C9 (witness): a classification call returning its labels
untouched. -/
theorem classification_labels_passthrough_witness :
    (some (YVal.arr (.a1 [1, 2])) : Option YVal) = some (.arr (.a1 [1, 2])) :=
  classification_labels_passthrough cfgPlain upResampler [[[[5]]]]
    (some (.arr (.a1 [1, 2]))) [[[[1], [2], [3]], [[4], [5], [6]]]]
    (some (.arr (.a1 [1, 2]))) rfl (by decide)

/-- C10: the label-kind tag is not validated at construction (the
validator's verdict is independent of `label_type`, so any string,
misspellings included, constructs fine whenever the numeric checks
pass), and any `label_type` other than exactly `"object_detection"` is
treated as the classification case: the call behaves exactly as with
no labels, with the input labels passed back unchanged and no
label-shape error possible. -/
theorem label_type_not_validated (cfg : ImageResize) (R : Resampler)
    (x : List Img) (y : Option YVal) (s : String) :
    ImageResize.check_params { cfg with label_type := s } = cfg.check_params ∧
    (cfg.label_type ≠ "object_detection" →
      ImageResize.call cfg R x y =
        (ImageResize.call cfg R x none).map fun p => (p.1, y)) := by
  constructor
  · rfl
  · intro hlt
    have hl := transformLoop_not_od R y hlt x 0
    have hln := transformLoop_none cfg R x 0
    unfold ImageResize.call
    rw [hl, hln]
    simp only [Bind.bind, Except.bind]
    cases npStack (x.map (outImg cfg R)) with
    | error e => rfl
    | ok st =>
      simp only [pure, Except.pure, Except.map]
      rw [youtOf_not_od hlt]

/-- C10 (witness): a misspelled `"object-detection"` tag validates like
any other configuration, and a call under it passes even a bare mapping
label through instead of raising. -/
theorem label_type_not_validated_witness :
    ImageResize.check_params { cfgMiss with label_type := "banana" } =
      cfgMiss.check_params ∧
    ImageResize.call cfgMiss idResampler [[[[5]]]]
        (some (.dict [("boxes", .a1 [1])])) =
      (ImageResize.call cfgMiss idResampler [[[[5]]]] none).map
        fun p => (p.1, some (.dict [("boxes", .a1 [1])])) :=
  ⟨(label_type_not_validated cfgMiss idResampler [[[[5]]]]
      (some (.dict [("boxes", .a1 [1])])) "banana").1,
    (label_type_not_validated cfgMiss idResampler [[[[5]]]]
      (some (.dict [("boxes", .a1 [1])])) "banana").2 (by decide)⟩

/-- C8: the external resampler is only ever invoked on the
height-width-channels rendering of a batch image, with the target size
passed as the pair `(width, height)` — configured width first — and
with the configured interpolation mode: two resamplers that agree on
exactly those invocations make the whole call agree. -/
theorem resampler_invocation (cfg : ImageResize) (R R' : Resampler)
    (x : List Img) (y : Option YVal)
    (hagree : ∀ xi ∈ x,
      R (hwcOf cfg xi) (cfg.width, cfg.height) cfg.interpolation =
      R' (hwcOf cfg xi) (cfg.width, cfg.height) cfg.interpolation) :
    ImageResize.call cfg R x y = ImageResize.call cfg R' x y := by
  unfold ImageResize.call
  rw [transformLoop_congr 0 hagree]

/-- C8 (witness): a resampler defined only at `dsize = (3, 2)` — width
3 first, height 2 second — reproduces the identity resampler's whole
call on a configuration with `height = 2`, `width = 3`. -/
theorem resampler_invocation_witness :
    ImageResize.call cfgPlain idResampler [[[[5]]]] none =
      ImageResize.call cfgPlain altResampler [[[[5]]]] none :=
  resampler_invocation cfgPlain idResampler altResampler [[[[5]]]] none (by decide)

/-- C5 (counterexample): with label kind object_detection, a per-image
record that lacks the `boxes` field does not raise the `TypeError`-class
label-shape error the claim requires; the call fails with a `KeyError`,
a different exception class. -/
theorem od_missing_boxes_counterexample :
    ImageResize.call cfgOD idResampler [[[[5]]]]
        (some (.list [.dict [("labels", .a1 [1])]])) =
      .error (.keyError "boxes") ∧
    ∀ m, (Err.keyError "boxes") ≠ .typeError m :=
  ⟨by decide, fun m => by simp⟩

/-- C5 (amended): with label kind object_detection and labels supplied,
the `TypeError` ("Wrong type for `y` ...") is raised when the labels
value is not a Python list — in particular a single mapping in place of
a per-image sequence raises it on any non-empty batch — and every
`TypeError` the call raises carries that message and stems from the
labels not being a list or a visited element not being a mapping.  A
record that is a mapping but lacks the `boxes` field fails with a
`KeyError` instead (see the counterexample). -/
theorem od_wrong_label_type (cfg : ImageResize) (R : Resampler) (x : List Img)
    (yv : YVal) (hod : cfg.label_type = "object_detection") :
    ((¬ ∃ l, yv = YVal.list l) → x ≠ [] →
      ImageResize.call cfg R x (some yv) = .error (.typeError wrongTypeMsg)) ∧
    (∀ m, ImageResize.call cfg R x (some yv) = .error (.typeError m) →
      m = wrongTypeMsg ∧
        ((¬ ∃ l, yv = YVal.list l) ∨ ∃ l j, yv = .list l ∧ l.get? j = some .nonDict)) := by
  constructor
  · intro hnl hx
    cases x with
    | nil => exact absurd rfl hx
    | cons xi rest =>
      have hstep : stepLabel cfg yv 0 xi = .error (.typeError wrongTypeMsg) := by
        cases yv with
        | arr a => rfl
        | dict d => rfl
        | list l => exact absurd ⟨l, rfl⟩ hnl
      apply call_error_of_loop
      rw [transformLoop_cons_od R hod, hstep]
      rfl
  · intro m hm
    unfold ImageResize.call at hm
    cases hloop : transformLoop cfg R (some yv) x 0 with
    | error e =>
      rw [hloop] at hm
      simp only [Bind.bind, Except.bind] at hm
      cases hm
      exact transformLoop_typeError hloop
    | ok p =>
      rw [hloop] at hm
      obtain ⟨imgs, labs⟩ := p
      simp only [Bind.bind, Except.bind] at hm
      cases hstack : npStack imgs with
      | error e =>
        rw [hstack] at hm
        simp only [Except.bind] at hm
        cases hm
        rcases npStack_error hstack with h' | h' <;> cases h'
      | ok st =>
        rw [hstack] at hm
        exact absurd hm (by simp [pure, Except.pure])

/-- C5 (witness): a single mapping passed as object-detection labels
for a one-image batch raises the `TypeError`. -/
theorem od_wrong_label_type_witness :
    ImageResize.call cfgOD idResampler [[[[5]]]]
        (some (.dict [("boxes", .a2 [[1, 1, 1, 1]])])) =
      .error (.typeError wrongTypeMsg) :=
  (od_wrong_label_type cfgOD idResampler [[[[5]]]]
      (.dict [("boxes", .a2 [[1, 1, 1, 1]])]) rfl).1
    (by rintro ⟨l, h⟩; cases h) (by simp)

/-- C7: with a configured clipping range `[lo, hi]`, every element of
the returned batch is clamped into the inclusive interval — each
resized value above `hi` becomes `hi`, each value below `lo` becomes
`lo`, others pass through — and with no clipping range configured the
stacked resized values are returned exactly as produced. -/
theorem transform_clip (cfg : ImageResize) (R : Resampler) (x : List Img)
    (y : Option YVal) :
    (∀ lo hi out yout, cfg.clip_values = some [lo, hi] → lo ≤ hi →
      ImageResize.call cfg R x y = .ok (out, yout) →
      (out = (x.map (outImg cfg R)).map fun img => img.map fun row => row.map fun px =>
          px.map fun v => if hi < v then hi else if v < lo then lo else v) ∧
      ∀ img ∈ out, ∀ row ∈ img, ∀ px ∈ row, ∀ v ∈ px, lo ≤ v ∧ v ≤ hi) ∧
    (∀ out yout, cfg.clip_values = none →
      ImageResize.call cfg R x y = .ok (out, yout) → out = x.map (outImg cfg R)) := by
  constructor
  · intro lo hi out yout hcv hle hok
    obtain ⟨imgs, labs, hloop, hstack, hclip, hyout⟩ := call_ok_elim hok
    have himgs := transformLoop_ok_imgs hloop
    subst himgs
    unfold applyClip at hclip
    rw [hcv] at hclip
    have hclip' : out = npClip lo hi (List.map (outImg cfg R) x) := hclip
    clear hclip
    rename' hclip' => hclip
    constructor
    · rw [hclip]
      unfold npClip
      apply List.map_congr_left
      intro img himg
      apply List.map_congr_left
      intro row hrow
      apply List.map_congr_left
      intro px hpx
      apply List.map_congr_left
      intro v hv
      exact clip_eq_ite hle
    · intro img himg row hrow px hpx v hv
      rw [hclip] at himg
      unfold npClip at himg
      obtain ⟨img0, -, rfl⟩ := List.mem_map.mp himg
      obtain ⟨row0, -, rfl⟩ := List.mem_map.mp hrow
      obtain ⟨px0, -, rfl⟩ := List.mem_map.mp hpx
      obtain ⟨v0, -, rfl⟩ := List.mem_map.mp hv
      exact clip_mem_Icc hle
  · intro out yout hcv hok
    obtain ⟨imgs, labs, hloop, hstack, hclip, hyout⟩ := call_ok_elim hok
    have himgs := transformLoop_ok_imgs hloop
    subst himgs
    unfold applyClip at hclip
    rw [hcv] at hclip
    exact hclip

/-- C7 (witness): with `clip_values = (0, 1)` a resized value of `3/2`
comes back as `1` and a value of `-1/5` comes back as `0`, both inside
the interval. -/
theorem transform_clip_witness :
    (([[[[1, 0]]]] : List Img) =
      ([[[[0]]]].map (outImg cfgClip hotResampler)).map fun img =>
        img.map fun row => row.map fun px =>
          px.map fun v => if (1 : ℚ) < v then 1 else if v < 0 then 0 else v) ∧
    ∀ img ∈ ([[[[1, 0]]]] : List Img), ∀ row ∈ img, ∀ px ∈ row, ∀ v ∈ px,
      (0 : ℚ) ≤ v ∧ v ≤ 1 :=
  (transform_clip cfgClip hotResampler [[[[0]]]] none).1 0 1 [[[[1, 0]]]] none
    rfl (by decide) (by decide)

/-- C6: the label rescaling mutates nothing the caller owns.  In the
store model of the record-processing lines, a successful run leaves
every pre-existing cell — the caller's images and annotation arrays,
including each record's `boxes` array — holding exactly the value it
held before, and every field of every output record points at a freshly
allocated cell, so the rescaled boxes share no storage with
caller-owned annotation data.  (The image pipeline performs no in-place
update at all: `np.transpose` views and `cv2.resize` outputs are fresh,
which the value-level embedding reflects by being a pure function of
the inputs.) -/
theorem transform_no_mutation (h : Store) (rs : List (List (String × Nat) × ℚ × ℚ))
    (h' : Store) (outs : List (List (String × Nat)))
    (hok : resizeLabelsH h rs = .ok (h', outs)) :
    (∀ a, a < h.length → readA h' a = readA h a) ∧
    (∀ rec ∈ outs, ∀ ka ∈ rec, h.length ≤ ka.2) := by
  obtain ⟨-, hpre, hmem⟩ := resizeLabelsH_spec rs h hok
  exact ⟨hpre, hmem⟩

/-- C6 (witness): a store holding one box array and one extra label
array; after processing, both caller cells are untouched and the output
record points only at fresh addresses. -/
theorem transform_no_mutation_witness :
    (∀ a, a < ([Arr.a2 [[1, 2, 3, 4]], Arr.a1 [7]] : Store).length →
      readA [Arr.a2 [[1, 2, 3, 4]], Arr.a1 [7],
          Arr.a2 [[1 / 2, 2 / 3, 3 / 2, 4 / 3]], Arr.a1 [7]] a =
      readA [Arr.a2 [[1, 2, 3, 4]], Arr.a1 [7]] a) ∧
    (∀ rec ∈ [[("boxes", 2), ("labels", 3)]], ∀ ka ∈ rec,
      ([Arr.a2 [[1, 2, 3, 4]], Arr.a1 [7]] : Store).length ≤ ka.2) :=
  transform_no_mutation [Arr.a2 [[1, 2, 3, 4]], Arr.a1 [7]]
    [([("boxes", 0), ("labels", 1)], 1 / 2, 1 / 3)]
    [Arr.a2 [[1, 2, 3, 4]], Arr.a1 [7],
      Arr.a2 [[1 / 2, 2 / 3, 3 / 2, 4 / 3]], Arr.a1 [7]]
    [[("boxes", 2), ("labels", 3)]] (by decide)

/-- C1: for every configuration with positive target height and width
and every non-empty batch of well-formed 3-D images of arbitrary,
possibly differing, spatial sizes, provided the external resampler
honours its contract of returning a height by width by channels image,
the call succeeds and returns a stacked batch of `x.length` images each
of shape `(height, width, C)` under channels-last, or `(C, height,
width)` under channels-first — independent of the input sizes. -/
theorem transform_output_shape (cfg : ImageResize) (R : Resampler) (x : List Img)
    (h w c : Nat) (hh : cfg.height = (h : Int)) (hw : cfg.width = (w : Int))
    (hhp : 0 < h) (hwp : 0 < w) (hcp : 0 < c) (hx : x ≠ [])
    (hwf : ∀ xi ∈ x, ∃ hi wi, 0 < hi ∧ 0 < wi ∧
      (if cfg.channels_first then isShape3 xi c hi wi else isShape3 xi hi wi c) = true)
    (hR : ∀ xi ∈ x,
      isShape3 (R (hwcOf cfg xi) (cfg.width, cfg.height) cfg.interpolation) h w c = true) :
    ∃ out, ImageResize.call cfg R x none = .ok (out, none) ∧
      out.length = x.length ∧
      ∀ img ∈ out,
        (if cfg.channels_first then isShape3 img c h w else isShape3 img h w c) = true := by
  by_cases hcf : cfg.channels_first
  · have hshape : ∀ img ∈ x.map (outImg cfg R), isShape3 img c h w = true := by
      intro img himg
      obtain ⟨xi, hxi, rfl⟩ := List.mem_map.mp himg
      have hRxi := hR xi hxi
      unfold outImg
      rw [if_pos hcf]
      exact isShape3_transpose201 hRxi hhp hwp
    obtain ⟨out, hcall, hlen, hmem⟩ := call_none_ok_shape hx hshape
    refine ⟨out, hcall, hlen, ?_⟩
    intro img himg
    rw [if_pos hcf]
    exact hmem img himg
  · have hshape : ∀ img ∈ x.map (outImg cfg R), isShape3 img h w c = true := by
      intro img himg
      obtain ⟨xi, hxi, rfl⟩ := List.mem_map.mp himg
      have hRxi := hR xi hxi
      unfold outImg
      rw [if_neg hcf]
      exact hRxi
    obtain ⟨out, hcall, hlen, hmem⟩ := call_none_ok_shape hx hshape
    refine ⟨out, hcall, hlen, ?_⟩
    intro img himg
    rw [if_neg hcf]
    exact hmem img himg

/-- C1 (witness): a one-image batch of a 1 by 1 by 1 image resized by a
contract-honouring resampler to the configured 2 by 3 target. -/
theorem transform_output_shape_witness :
    ∃ out, ImageResize.call cfgPlain upResampler [[[[5]]]] none = .ok (out, none) ∧
      out.length = ([[[[5]]]] : List Img).length ∧
      ∀ img ∈ out,
        (if cfgPlain.channels_first then isShape3 img 1 2 3
          else isShape3 img 2 3 1) = true :=
  transform_output_shape cfgPlain upResampler [[[[5]]]] 2 3 1 rfl rfl
    (by decide) (by decide) (by decide) (by decide)
    (by
      intro xi hxi
      rw [List.mem_singleton] at hxi
      subst hxi
      exact ⟨1, 1, by decide, by decide, by decide⟩)
    (by decide)

/-- C2: on a successful object-detection call with labels, the output
record for image `i` is the input record with its `boxes` array
replaced: every row identically gets columns 0 and 2 multiplied by
`width_scale = width / original_width` and columns 1 and 3 multiplied
by `height_scale = height / original_height`, the original sizes being
the first two dimensions of the pre-resize image in
height-width-channels order (after any channels-first transpose), with
no clamping to image bounds and all other fields copied verbatim. -/
theorem transform_boxes_rescaled (cfg : ImageResize) (R : Resampler) (x : List Img)
    (l : List YItem) (out : List Img) (yout : Option YVal)
    (hod : cfg.label_type = "object_detection")
    (hok : ImageResize.call cfg R x (some (.list l)) = .ok (out, yout)) :
    ∃ ds : List (List (String × Arr)),
      yout = some (.list (ds.map YItem.dict)) ∧ ds.length = x.length ∧
      ∀ i, i < x.length →
        ∃ d rows, l.get? i = some (.dict d) ∧
          List.lookup "boxes" d = some (.a2 rows) ∧ (∀ r ∈ rows, 4 ≤ r.length) ∧
          ds.get? i = some (d.map fun kv =>
            if kv.1 = "boxes" then
              (kv.1, Arr.a2 (rows.map (scaleRowSpec
                ((cfg.width : ℚ) / (((hwcOf cfg (x.getD i [])).headD []).length : ℚ))
                ((cfg.height : ℚ) / ((hwcOf cfg (x.getD i [])).length : ℚ)))))
            else kv) := by
  obtain ⟨imgs, labs, hloop, hstack, hclip, hyout⟩ := call_ok_elim hok
  obtain ⟨hlen, hsteps⟩ := transformLoop_od_labels hod hloop
  refine ⟨labs, ?_, hlen, ?_⟩
  · rw [hyout, youtOf_od_some hod]
  · intro i hi
    have hstep := hsteps i hi
    rw [Nat.zero_add] at hstep
    obtain ⟨l', d, rows, hl', hget, hlk, hall, hform⟩ := stepLabel_ok hstep
    cases hl'
    refine ⟨d, rows, hget, hlk, hall, ?_⟩
    have hil : i < labs.length := by rw [hlen]; exact hi
    have hgd : labs.get? i = some (labs.getD i []) := by
      simp [List.get?_eq_getElem?, List.getD_eq_getElem?_getD,
        List.getElem?_eq_getElem hil]
    rw [hgd, hform]

set_option maxRecDepth 8000 in
/-- C2 (witness): the specification's worked example — an image of
original size H = 100, W = 200 resized to 50 by 50 maps the box
`[20, 10, 60, 40]` to `[5, 5, 15, 20]`. -/
theorem transform_boxes_rescaled_witness :
    ∃ ds : List (List (String × Arr)),
      (some (YVal.list [.dict [("boxes", Arr.a2 [[5, 5, 15, 20]])]]) : Option YVal) =
        some (.list (ds.map YItem.dict)) ∧
      ds.length = ([imgSpec] : List Img).length ∧
      ∀ i, i < ([imgSpec] : List Img).length →
        ∃ d rows,
          ([YItem.dict [("boxes", Arr.a2 [[20, 10, 60, 40]])]]).get? i =
            some (.dict d) ∧
          List.lookup "boxes" d = some (.a2 rows) ∧ (∀ r ∈ rows, 4 ≤ r.length) ∧
          ds.get? i = some (d.map fun kv =>
            if kv.1 = "boxes" then
              (kv.1, Arr.a2 (rows.map (scaleRowSpec
                ((cfgSpec.width : ℚ) /
                  (((hwcOf cfgSpec (([imgSpec] : List Img).getD i [])).headD []).length : ℚ))
                ((cfgSpec.height : ℚ) /
                  ((hwcOf cfgSpec (([imgSpec] : List Img).getD i [])).length : ℚ)))))
            else kv) :=
  transform_boxes_rescaled cfgSpec idResampler [imgSpec]
    [.dict [("boxes", .a2 [[20, 10, 60, 40]])]] [imgSpec]
    (some (.list [.dict [("boxes", .a2 [[5, 5, 15, 20]])]])) rfl (by decide)
